import Mathlib

/-!
Shallow embedding of `pkg/archive/compression/compression.go` (containerd's
compression-format abstraction layer) and proofs about it.

Bytes are modelled as `Nat` (Go `byte` values are < 256; hypotheses state this
where it matters).  Byte streams are finite lists followed by a terminal
condition (end-of-data or an error), matching the Go `io.Reader` contract for
a finite source.
-/

namespace Compr

/-- Go: `type Compression int`.  The Go type is an `int`, not a closed
enumeration, so we keep it as `Nat` with the five named constants. -/
abbrev Compression := Nat

/-- Go: `Uncompressed Compression = iota` (= 0). -/
def Uncompressed : Compression := 0

/-- Go: `Gzip` (= 1). -/
def Gzip : Compression := 1

/-- Go: `Zstd` (= 2). -/
def Zstd : Compression := 2

/-- Go: `Bzip2` (= 3). -/
def Bzip2 : Compression := 3

/-- Go: `Xz` (= 4). -/
def Xz : Compression := 4

/-- Go: `zstdMagicSkippableStart = 0x184D2A50`. -/
def zstdMagicSkippableStart : Nat := 0x184D2A50

/-- Go: `zstdMagicSkippableMask = 0xFFFFFFF0`. -/
def zstdMagicSkippableMask : Nat := 0xFFFFFFF0

/-- Go: `gzipMagic = []byte{0x1F, 0x8B, 0x08}`. -/
def gzipMagic : List Nat := [0x1F, 0x8B, 0x08]

/-- Go: `zstdMagic = []byte{0x28, 0xb5, 0x2f, 0xfd}`. -/
def zstdMagic : List Nat := [0x28, 0xb5, 0x2f, 0xfd]

/-- Go: `bzip2Magic = []byte{0x42, 0x5A, 0x68}`. -/
def bzip2Magic : List Nat := [0x42, 0x5A, 0x68]

/-- Go: `xzMagic = []byte{0xFD, 0x37, 0x7A, 0x58, 0x5A, 0x00}`. -/
def xzMagic : List Nat := [0xFD, 0x37, 0x7A, 0x58, 0x5A, 0x00]

/-- Go: `magicNumberMatcher(m)` returns a closure testing
`bytes.HasPrefix(source, m)`. -/
def magicNumberMatcher (m : List Nat) (source : List Nat) : Bool :=
  m.isPrefixOf source

/-- Go: `binary.LittleEndian.Uint32(source[:4])` on the four leading bytes. -/
def leUint32 (b0 b1 b2 b3 : Nat) : Nat :=
  b0 + b1 * 256 + b2 * 65536 + b3 * 16777216

/-- Go `zstdMatcher()`: Zstandard-frame 4-byte magic, or (with at least 8
bytes available) a skippable frame recognised by masking the low 4 bits of
the little-endian 32-bit value of the first 4 bytes. -/
def zstdMatcher (source : List Nat) : Bool :=
  if zstdMagic.isPrefixOf source then true
  else if source.length < 8 then false
  else match source with
    | b0 :: b1 :: b2 :: b3 :: _ =>
        leUint32 b0 b1 b2 b3 &&& zstdMagicSkippableMask == zstdMagicSkippableStart
    | _ => false

/-- The entries of the matcher map in `DetectCompression`.  Go iterates this
as a `map[Compression]matcher`, whose iteration order is not specified; we
fix one order here and prove separately (claim C3) that the detection result
is the same for every iteration order, because the signatures are disjoint. -/
def matcherTable : List (Compression × (List Nat → Bool)) :=
  [(Gzip, magicNumberMatcher gzipMagic),
   (Zstd, zstdMatcher),
   (Bzip2, magicNumberMatcher bzip2Magic),
   (Xz, magicNumberMatcher xzMagic)]

/-- The loop body of `DetectCompression`: return the first table entry whose
matcher accepts the source, else `Uncompressed`. -/
def detectFirst : List (Compression × (List Nat → Bool)) → List Nat → Compression
  | [], _ => Uncompressed
  | (c, fn) :: rest, source => if fn source then c else detectFirst rest source

/-- Go: `DetectCompression(source)`. -/
def DetectCompression (source : List Nat) : Compression :=
  detectFirst matcherTable source

/-- Terminal condition a finite byte stream reports once its data is
delivered: `io.EOF` or a failing error carrying a message. -/
inductive RErr where
  | eof
  | fail (msg : String)
  deriving DecidableEq

/-- A finite input stream: the bytes it delivers, then the terminal
condition its reads report forever after. -/
structure ByteSource where
  data : List Nat
  terminal : RErr
  deriving DecidableEq

/-- Modelled from the spec: the Go standard library `bufio.Reader` (not part
of this repository) as used through `bufioReader32KPool`.  State is the bytes
already pulled into the lookahead buffer plus the unread remainder of the
wrapped source; the wrapped source is modelled as delivering all its bytes
on one fill, then its terminal condition. -/
structure BufioR where
  buffered : List Nat
  src : ByteSource
  deriving DecidableEq

/-- The logical unread content of a `bufio.Reader` state. -/
def BufioR.logical (r : BufioR) : List Nat :=
  r.buffered ++ r.src.data

/-- Modelled from the spec: `bufio.Reader.Peek(n)` fills the buffer until it
holds `n` bytes or the source reports its terminal condition, and returns the
first `n` buffered bytes without advancing the logical read position; when
fewer than `n` bytes are available it returns what is available together with
the terminal condition as the error. -/
def bufioPeek (r : BufioR) (n : Nat) : List Nat × Option RErr × BufioR :=
  if n ≤ r.buffered.length then (r.buffered.take n, none, r)
  else
    let all := r.buffered ++ r.src.data
    let filled : BufioR := { buffered := all, src := { data := [], terminal := r.src.terminal } }
    if n ≤ all.length then (all.take n, none, filled)
    else (all, some r.src.terminal, filled)

/-- Modelled from the spec: `bufio.Reader.Read(p)` with `p` of length `k`:
serve from the buffer if it is non-empty; otherwise fill once from the source
and serve from that; if the source is exhausted report its terminal
condition with zero bytes. -/
def bufioRead (r : BufioR) (k : Nat) : List Nat × Option RErr × BufioR :=
  if r.buffered ≠ [] then
    (r.buffered.take k, none, { r with buffered := r.buffered.drop k })
  else if r.src.data ≠ [] then
    (r.src.data.take k, none,
      { buffered := r.src.data.drop k, src := { data := [], terminal := r.src.terminal } })
  else
    ([], some r.src.terminal, r)

/-- Go `newBufferedReader`: check a 32K `bufio.Reader` out of the pool and
reset it onto the source.  The repository's `bufferedReader.buf` field is
nilable; `none` models `buf == nil` (buffer already returned to the pool). -/
def newBufferedReader (src : ByteSource) : Option BufioR :=
  some { buffered := [], src := src }

/-- Result of `bufferedReader.Read`: bytes delivered, error, successor state,
and whether this call returned the buffer to the shared pool. -/
structure ReadOut where
  bytes : List Nat
  err : Option RErr
  state : Option BufioR
  putPool : Bool
  deriving DecidableEq

/-- Go `bufferedReader.Read`: a nil buffer reports `io.EOF`; otherwise read
through the `bufio.Reader`, and exactly when that read reports `io.EOF`,
reset the buffer, return it to the pool and nil the field. -/
def bufferedReaderRead (st : Option BufioR) (k : Nat) : ReadOut :=
  match st with
  | none => { bytes := [], err := some .eof, state := none, putPool := false }
  | some r =>
      let (bs, e, r') := bufioRead r k
      if e = some .eof then
        { bytes := bs, err := e, state := none, putPool := true }
      else
        { bytes := bs, err := e, state := some r', putPool := false }

/-- Go `bufferedReader.Peek`: a nil buffer reports `io.EOF`; otherwise
delegate to `bufio.Reader.Peek`. -/
def bufferedReaderPeek (st : Option BufioR) (n : Nat) : List Nat × Option RErr × Option BufioR :=
  match st with
  | none => ([], some .eof, none)
  | some r =>
      let (bs, e, r') := bufioPeek r n
      (bs, e, some r')

/-- The logical unread content of a `bufferedReader` state (empty once the
buffer has been returned to the pool). -/
def readerLogical : Option BufioR → List Nat
  | none => []
  | some r => r.logical

/-- Go: `Compression.Extension()`. -/
def Extension (compression : Compression) : String :=
  if compression = Gzip then "gz"
  else if compression = Zstd then "zst"
  else ""

/-- The closure installed in the `closer` field of `readCloserWrapper` by
each branch of `DecompressStream`, encoded by its effect: `retNil` is the
Bzip2 closure `func() error { return nil }`; `cancelCloseCodec` is the
Gzip/Xz closure `cancel(); return reader.Close()`; `closeCodec` is the Zstd
closure `zstdReader.Close(); return nil`. -/
inductive CloserEff where
  | retNil
  | cancelCloseCodec
  | closeCodec
  deriving DecidableEq

/-- The `io.Reader` stored in a `readCloserWrapper`: the buffered reader
itself (Uncompressed branch) or a codec/subprocess reader over it. -/
inductive HReader where
  | buffered (st : Option BufioR)
  | codec (c : Compression)
  deriving DecidableEq

/-- Go `readCloserWrapper`: the handle `DecompressStream` returns. -/
structure Handle where
  reader : HReader
  compression : Compression
  closer : Option CloserEff
  deriving DecidableEq

/-- Observable close-state of the resources around a decompression handle:
whether the caller's source reader has been closed, whether the codec (or
subprocess pipe) reader has been closed, and whether the subprocess context
has been cancelled. -/
structure World where
  sourceClosed : Bool
  codecClosed : Bool
  ctxCancelled : Bool
  deriving DecidableEq

/-- Effect of one `CloserEff` on the world. -/
def applyCloserEff : CloserEff → World → World
  | .retNil, w => w
  | .cancelCloseCodec, w => { w with ctxCancelled := true, codecClosed := true }
  | .closeCodec, w => { w with codecClosed := true }

/-- Go `readCloserWrapper.Close`: run the closer if non-nil, else do nothing
and return nil. -/
def handleClose (h : Handle) (w : World) : World :=
  match h.closer with
  | none => w
  | some eff => applyCloserEff eff w

/-- Go `DecompressStream`.  Errors are `RErr`: the distinguished `io.EOF`
value or a message-carrying error.  The three fallible codec constructors it
calls (`gzipDecompress`, `zstd.NewReader`, `xzDecompress`) are collaborators
outside this file's scope per the spec; they are passed in as the outcome of
constructing each codec reader, and each of those branches re-declares `err`
with `:=`, shadowing the peek error.  `bzip2.NewReader` returns no error, so
the Bzip2 branch's `if err != nil { return nil, err }` tests the STALE `err`
from `buf.Peek(10)` — after the top filter that value is nil or `io.EOF`, so
a bzip2-classified short input returns `io.EOF` instead of a handle. -/
def DecompressStream (archive : ByteSource)
    (gzOpen : Except String Unit) (zstdOpen : Except String Unit)
    (xzOpen : Except String Unit) : Except RErr Handle :=
  let buf := newBufferedReader archive
  let (bs, err, buf') := bufferedReaderPeek buf 10
  match err with
  | some (.fail m) => .error (.fail m)
  | _ =>
    let compression := DetectCompression bs
    if compression = Uncompressed then
      .ok { reader := .buffered buf', compression := compression, closer := none }
    else if compression = Gzip then
      match gzOpen with
      | .error e => .error (.fail e)
      | .ok _ => .ok { reader := .codec Gzip, compression := compression,
                       closer := some .cancelCloseCodec }
    else if compression = Zstd then
      match zstdOpen with
      | .error e => .error (.fail e)
      | .ok _ => .ok { reader := .codec Zstd, compression := compression,
                       closer := some .closeCodec }
    else if compression = Xz then
      match xzOpen with
      | .error e => .error (.fail e)
      | .ok _ => .ok { reader := .codec Xz, compression := compression,
                       closer := some .cancelCloseCodec }
    else if compression = Bzip2 then
      match err with
      | some e => .error e
      | none => .ok { reader := .codec Bzip2, compression := compression,
                      closer := some .retNil }
    else
      .error (.fail ("unsupported compression format " ++ Extension compression))

/-- The writer `CompressStream` hands back: plain destination (Uncompressed),
`gzip.NewWriter` or `zstd.NewWriter`. -/
inductive CompressWriter where
  | plainW
  | gzipW
  | zstdW
  deriving DecidableEq

/-- Go `CompressStream`.  The destination writer is modelled as the list of
bytes written to it so far; the second component of the result is the
destination after the call (none of the writer constructors write at
construction time). -/
def CompressStream (dest : List Nat) (compression : Compression) :
    Except String CompressWriter × List Nat :=
  if compression = Uncompressed then (.ok .plainW, dest)
  else if compression = Gzip then (.ok .gzipW, dest)
  else if compression = Zstd then (.ok .zstdW, dest)
  else (.error ("unsupported compression format " ++ Extension compression), dest)

/-- An external decoder process as `cmdStream` observes it: whether `Start`
fails, whether `Wait` reports a non-zero exit (with the error's text),
the bytes the process writes to its standard output, and the text it writes
to its standard error (captured in `errBuf`). -/
structure Proc where
  startErr : Option String
  exitErr : Option String
  stdout : List Nat
  stderrText : String
  deriving DecidableEq

/-- The read end of the `io.Pipe` that `cmdStream` hands back: the bytes
buffered in it followed by the terminal condition its write side was closed
with. -/
structure PipeR where
  data : List Nat
  terminal : RErr
  deriving DecidableEq

/-- Go `cmdStream`: a `Start` failure is returned synchronously; otherwise a
background goroutine waits for the process and closes the pipe's write side —
with `fmt.Errorf("%s: %s", err, errBuf.String())` on a non-zero exit, cleanly
on a zero exit.  The goroutine is modelled by the terminal condition of the
returned pipe, which is what the caller's reads observe past the buffered
output. -/
def cmdStream (p : Proc) : Except String PipeR :=
  match p.startErr with
  | some e => .error e
  | none =>
    match p.exitErr with
    | some e => .ok { data := p.stdout, terminal := .fail (e ++ ": " ++ p.stderrText) }
    | none => .ok { data := p.stdout, terminal := .eof }

/-- Construction outcome of an `xzDecompress`/`gzipDecompress` reader backed
by `cmdStream` on process `p`, in the shape `DecompressStream` consumes. -/
def cmdStreamOpen (p : Proc) : Except String Unit :=
  match cmdStream p with
  | .error e => .error e
  | .ok _ => .ok ()

/-- Reading a `PipeR` to the end: all buffered bytes, then the terminal
condition. -/
def pipeReadAll (r : PipeR) : List Nat × RErr :=
  (r.data, r.terminal)

/-- One caller operation on a `bufferedReader`. -/
inductive Op where
  | read (k : Nat)
  | peek (n : Nat)
  deriving DecidableEq

/-- Execute one operation; report the successor state and whether the buffer
was returned to the pool by this operation. -/
def stepOp (st : Option BufioR) : Op → Option BufioR × Bool
  | .read k =>
      let o := bufferedReaderRead st k
      (o.state, o.putPool)
  | .peek n =>
      let (_, _, st') := bufferedReaderPeek st n
      (st', false)

/-- Run a sequence of operations; report the final state and the total
number of pool returns performed. -/
def runOps : Option BufioR → List Op → Option BufioR × Nat
  | st, [] => (st, 0)
  | st, op :: rest =>
      let (st', put) := stepOp st op
      let (stf, c) := runOps st' rest
      (stf, (if put then 1 else 0) + c)

/-! ## Helper lemmas -/

/-- Masking with `0xFFFFFFF0` clears the low 4 bits and keeps bits 4–31. -/
theorem land_skippable_mask (v : Nat) :
    v &&& zstdMagicSkippableMask = v / 16 % 2 ^ 28 * 16 := by
  have hmask : zstdMagicSkippableMask = (2 ^ 28 - 1) <<< 4 := by
    rw [Nat.shiftLeft_eq]; rfl
  have hrhs : v / 16 % 2 ^ 28 * 16 = ((v >>> 4) % 2 ^ 28) <<< 4 := by
    rw [Nat.shiftLeft_eq, Nat.shiftRight_eq_div_pow]
  rw [hmask, hrhs]
  apply Nat.eq_of_testBit_eq
  intro i
  rw [Nat.testBit_and, Nat.testBit_shiftLeft, Nat.testBit_shiftLeft,
    Nat.testBit_mod_two_pow, Nat.testBit_shiftRight, Nat.testBit_two_pow_sub_one]
  by_cases h4 : 4 ≤ i
  · have he : 4 + (i - 4) = i := by omega
    rw [he]
    by_cases h28 : i - 4 < 28
    · simp [ge_iff_le, h4, h28, Bool.and_comm]
    · simp [ge_iff_le, h4, h28]
  · simp [ge_iff_le, h4]

/-- The skippable-frame test fails whenever the first byte's high nibble is
not `5` (no byte bounds needed on the other three bytes). -/
theorem skippable_beq_false (b0 b1 b2 b3 : Nat) (h : b0 < 256) (hd : b0 / 16 ≠ 5) :
    (leUint32 b0 b1 b2 b3 &&& zstdMagicSkippableMask == zstdMagicSkippableStart) = false := by
  rw [beq_eq_false_iff_ne, land_skippable_mask]
  unfold leUint32 zstdMagicSkippableStart
  omega

/-- For in-range bytes, the code's masked comparison agrees with the spec's
"little-endian value with the low 4 bits masked off equals the marker". -/
theorem skippable_beq_iff (b0 b1 b2 b3 : Nat)
    (h0 : b0 < 256) (h1 : b1 < 256) (h2 : b2 < 256) (h3 : b3 < 256) :
    (leUint32 b0 b1 b2 b3 &&& zstdMagicSkippableMask == zstdMagicSkippableStart) = true ↔
      leUint32 b0 b1 b2 b3 - leUint32 b0 b1 b2 b3 % 16 = zstdMagicSkippableStart := by
  rw [beq_iff_eq, land_skippable_mask]
  unfold leUint32 zstdMagicSkippableStart
  constructor <;> intro hh <;> omega

/-- `zstdMatcher` rejects any window whose first byte is neither the zstd
magic's first byte nor has high nibble `5`. -/
theorem zstdMatcher_false_of_head (b0 : Nat) (r : List Nat)
    (h256 : b0 < 256) (hdiv : b0 / 16 ≠ 5) (hne : b0 ≠ 0x28) :
    zstdMatcher (b0 :: r) = false := by
  have hpre : zstdMagic.isPrefixOf (b0 :: r) = false := by
    rw [zstdMagic, List.isPrefixOf_cons₂]
    simp [Ne.symm hne]
  unfold zstdMatcher
  rw [hpre]
  rw [if_neg (by simp : ¬(false = true))]
  rcases r with _ | ⟨b1, r⟩
  · simp
  rcases r with _ | ⟨b2, r⟩
  · simp
  rcases r with _ | ⟨b3, r⟩
  · simp
  by_cases hlen : (b0 :: b1 :: b2 :: b3 :: r).length < 8
  · rw [if_pos hlen]
  · rw [if_neg hlen]
    exact skippable_beq_false b0 b1 b2 b3 h256 hdiv

/-- A matcher built from a magic with first byte `b` only accepts windows
whose first byte is `b`. -/
theorem head_of_magic (b : Nat) (m s : List Nat)
    (h : magicNumberMatcher (b :: m) s = true) : ∃ t, s = b :: t := by
  unfold magicNumberMatcher at h
  cases s with
  | nil => simp at h
  | cons a t =>
      rw [List.isPrefixOf_cons₂] at h
      simp at h
      exact ⟨t, by rw [h.1]⟩

/-- Two magic matchers with distinct first bytes never accept the same
window. -/
theorem magic_heads_clash {b1 b2 : Nat} {m1 m2 s : List Nat} (hne : b1 ≠ b2)
    (h1 : magicNumberMatcher (b1 :: m1) s = true)
    (h2 : magicNumberMatcher (b2 :: m2) s = true) : False := by
  obtain ⟨t1, ht1⟩ := head_of_magic b1 m1 s h1
  obtain ⟨t2, ht2⟩ := head_of_magic b2 m2 s h2
  rw [ht1] at ht2
  simp at ht2
  exact hne ht2.1

/-- A magic matcher whose first byte is incompatible with both zstd shapes
excludes the zstd matcher. -/
theorem magic_zstd_clash {b0 : Nat} {m s : List Nat} (h256 : b0 < 256)
    (hdiv : b0 / 16 ≠ 5) (hne : b0 ≠ 0x28)
    (h1 : magicNumberMatcher (b0 :: m) s = true) (h2 : zstdMatcher s = true) : False := by
  obtain ⟨t, ht⟩ := head_of_magic b0 m s h1
  rw [ht, zstdMatcher_false_of_head b0 t h256 hdiv hne] at h2
  cases h2

/-- If no entry of the table accepts the window, the scan returns
`Uncompressed`. -/
theorem detectFirst_of_forall_false (l : List (Compression × (List Nat → Bool)))
    (s : List Nat) (h : ∀ p ∈ l, p.2 s = false) : detectFirst l s = Uncompressed := by
  induction l with
  | nil => rfl
  | cons p rest ih =>
      obtain ⟨c, f⟩ := p
      have hf := h (c, f) (List.mem_cons_self _ _)
      simp only at hf
      simp only [detectFirst, hf, Bool.false_eq_true, if_false]
      exact ih (fun q hq => h q (List.mem_cons_of_mem _ hq))

/-- If some entry accepts the window and every accepting entry carries the
same algorithm, the scan returns that algorithm — in any order. -/
theorem detectFirst_of_uniq (l : List (Compression × (List Nat → Bool)))
    (s : List Nat) (c : Compression) (f : List Nat → Bool)
    (hmem : (c, f) ∈ l) (htrue : f s = true)
    (huniq : ∀ p ∈ l, p.2 s = true → p.1 = c) :
    detectFirst l s = c := by
  induction l with
  | nil => cases hmem
  | cons p rest ih =>
      obtain ⟨c1, f1⟩ := p
      by_cases h1 : f1 s = true
      · simp only [detectFirst, h1, if_true]
        exact huniq (c1, f1) (List.mem_cons_self _ _) h1
      · have h1f : f1 s = false := by revert h1; cases f1 s <;> simp
        simp only [detectFirst, h1f, Bool.false_eq_true, if_false]
        have hm2 : (c, f) ∈ rest := by
          rcases List.mem_cons.mp hmem with he | hm
          · cases he; exact absurd htrue h1
          · exact hm
        exact ih hm2 (fun q hq hqt => huniq q (List.mem_cons_of_mem _ hq) hqt)

/-- The four registered signatures are pairwise disjoint: any two table
entries accepting the same window carry the same algorithm. -/
theorem matcherTable_uniq (s : List Nat) (p q : Compression × (List Nat → Bool))
    (hp : p ∈ matcherTable) (hq : q ∈ matcherTable)
    (hpt : p.2 s = true) (hqt : q.2 s = true) : p.1 = q.1 := by
  simp only [matcherTable, List.mem_cons, List.mem_singleton, List.not_mem_nil, or_false] at hp hq
  rcases hp with rfl | rfl | rfl | rfl <;> rcases hq with rfl | rfl | rfl | rfl <;>
    simp only [gzipMagic, bzip2Magic, xzMagic] at hpt hqt <;>
    first
    | rfl
    | exact (magic_heads_clash (by norm_num) hpt hqt).elim
    | exact (magic_heads_clash (by norm_num) hqt hpt).elim
    | exact (magic_zstd_clash (by norm_num) (by norm_num) (by norm_num) hpt hqt).elim
    | exact (magic_zstd_clash (by norm_num) (by norm_num) (by norm_num) hqt hpt).elim

/-- `DetectCompression` on a window with the gzip magic. -/
theorem detect_gzip_heads (r : List Nat) :
    DetectCompression (0x1F :: 0x8B :: 0x08 :: r) = Gzip := by
  simp [DetectCompression, matcherTable, detectFirst, magicNumberMatcher, gzipMagic,
    List.isPrefixOf_cons₂, List.isPrefixOf_nil_left]

/-- `DetectCompression` on a window with the bzip2 magic. -/
theorem detect_bzip2_heads (r : List Nat) :
    DetectCompression (0x42 :: 0x5A :: 0x68 :: r) = Bzip2 := by
  have hz := zstdMatcher_false_of_head 0x42 (0x5A :: 0x68 :: r)
    (by norm_num) (by norm_num) (by norm_num)
  simp [DetectCompression, matcherTable, detectFirst, magicNumberMatcher, gzipMagic,
    bzip2Magic, List.isPrefixOf_cons₂, List.isPrefixOf_nil_left, hz]

/-- `DetectCompression` on a window with the xz magic. -/
theorem detect_xz_heads (r : List Nat) :
    DetectCompression (0xFD :: 0x37 :: 0x7A :: 0x58 :: 0x5A :: 0x00 :: r) = Xz := by
  have hz := zstdMatcher_false_of_head 0xFD (0x37 :: 0x7A :: 0x58 :: 0x5A :: 0x00 :: r)
    (by norm_num) (by norm_num) (by norm_num)
  simp [DetectCompression, matcherTable, detectFirst, magicNumberMatcher, gzipMagic,
    bzip2Magic, xzMagic, List.isPrefixOf_cons₂, List.isPrefixOf_nil_left, hz]

/-- `DetectCompression` on a window with the zstd frame magic. -/
theorem detect_zstd_heads (r : List Nat) :
    DetectCompression (0x28 :: 0xB5 :: 0x2F :: 0xFD :: r) = Zstd := by
  simp [DetectCompression, matcherTable, detectFirst, magicNumberMatcher, gzipMagic,
    zstdMatcher, zstdMagic, List.isPrefixOf_cons₂, List.isPrefixOf_nil_left]

/-- The classification peek of `DecompressStream`: on a fresh buffered
reader, `Peek(10)` returns the first 10 bytes (no error), or all the data
plus the source's terminal condition when fewer than 10 bytes are
available. -/
theorem peek10 (src : ByteSource) :
    bufferedReaderPeek (newBufferedReader src) 10 =
      (if 10 ≤ src.data.length then
        (src.data.take 10, none,
          some { buffered := src.data, src := { data := [], terminal := src.terminal } })
       else
        (src.data, some src.terminal,
          some { buffered := src.data, src := { data := [], terminal := src.terminal } })) := by
  unfold newBufferedReader bufferedReaderPeek bufioPeek
  by_cases h : 10 ≤ src.data.length <;> simp [h]

/-- Evaluating `DecompressStream` once the peek outcome is known and its
error is tolerated (`nil` or `io.EOF`). -/
theorem DS_of_peek (src : ByteSource) (g z x : Except String Unit) (bs : List Nat)
    (e : Option RErr) (st : Option BufioR)
    (hp : bufferedReaderPeek (newBufferedReader src) 10 = (bs, e, st))
    (he : e = none ∨ e = some .eof) :
    DecompressStream src g z x =
      (if DetectCompression bs = Uncompressed then
        .ok { reader := .buffered st, compression := DetectCompression bs, closer := none }
      else if DetectCompression bs = Gzip then
        match g with
        | .error e2 => .error (.fail e2)
        | .ok _ => .ok { reader := .codec Gzip, compression := DetectCompression bs,
                         closer := some .cancelCloseCodec }
      else if DetectCompression bs = Zstd then
        match z with
        | .error e2 => .error (.fail e2)
        | .ok _ => .ok { reader := .codec Zstd, compression := DetectCompression bs,
                         closer := some .closeCodec }
      else if DetectCompression bs = Xz then
        match x with
        | .error e2 => .error (.fail e2)
        | .ok _ => .ok { reader := .codec Xz, compression := DetectCompression bs,
                         closer := some .cancelCloseCodec }
      else if DetectCompression bs = Bzip2 then
        match e with
        | some e2 => .error e2
        | none => .ok { reader := .codec Bzip2, compression := DetectCompression bs,
                        closer := some .retNil }
      else .error (.fail ("unsupported compression format " ++
        Extension (DetectCompression bs)))) := by
  have h1 : (bufferedReaderPeek (newBufferedReader src) 10).1 = bs := by rw [hp]
  have h2 : (bufferedReaderPeek (newBufferedReader src) 10).2.1 = e := by rw [hp]
  have h3 : (bufferedReaderPeek (newBufferedReader src) 10).2.2 = st := by rw [hp]
  simp only [DecompressStream, h1, h2, h3]
  rcases he with rfl | rfl <;> rfl

/-- A non-EOF peek error aborts `DecompressStream` with that error. -/
theorem DS_of_peek_fail (src : ByteSource) (g z x : Except String Unit) (bs : List Nat)
    (st : Option BufioR) (m : String)
    (hp : bufferedReaderPeek (newBufferedReader src) 10 = (bs, some (.fail m), st)) :
    DecompressStream src g z x = .error (.fail m) := by
  have h2 : (bufferedReaderPeek (newBufferedReader src) 10).2.1 = some (.fail m) := by rw [hp]
  simp only [DecompressStream, h2]

/-- `DetectCompression` only ever returns one of the five named values. -/
theorem detect_cases (s : List Nat) :
    DetectCompression s = Uncompressed ∨ DetectCompression s = Gzip ∨
    DetectCompression s = Zstd ∨ DetectCompression s = Bzip2 ∨
    DetectCompression s = Xz := by
  have hrw : DetectCompression s =
      (if magicNumberMatcher gzipMagic s then Gzip
       else if zstdMatcher s then Zstd
       else if magicNumberMatcher bzip2Magic s then Bzip2
       else if magicNumberMatcher xzMagic s then Xz
       else Uncompressed) := rfl
  rw [hrw]
  split_ifs <;> simp

/-- Every handle `DecompressStream` returns carries one of the five
compression tags with the closer its branch installs. -/
theorem DS_handle_range (src : ByteSource) (g z x : Except String Unit) (h : Handle)
    (hds : DecompressStream src g z x = .ok h) :
    (h.compression = Uncompressed ∧ h.closer = none) ∨
    (h.compression = Gzip ∧ h.closer = some .cancelCloseCodec) ∨
    (h.compression = Zstd ∧ h.closer = some .closeCodec) ∨
    (h.compression = Xz ∧ h.closer = some .cancelCloseCodec) ∨
    (h.compression = Bzip2 ∧ h.closer = some .retNil) := by
  have hpk := peek10 src
  have main : ∀ (bs : List Nat) (e : Option RErr) (st : Option BufioR),
      bufferedReaderPeek (newBufferedReader src) 10 = (bs, e, st) →
      (e = none ∨ e = some .eof) →
      ((h.compression = Uncompressed ∧ h.closer = none) ∨
       (h.compression = Gzip ∧ h.closer = some .cancelCloseCodec) ∨
       (h.compression = Zstd ∧ h.closer = some .closeCodec) ∨
       (h.compression = Xz ∧ h.closer = some .cancelCloseCodec) ∨
       (h.compression = Bzip2 ∧ h.closer = some .retNil)) := by
    intro bs e st hp he
    rw [DS_of_peek src g z x bs e st hp he] at hds
    rcases detect_cases bs with hd | hd | hd | hd | hd <;> rw [hd] at hds
    · rw [if_pos rfl] at hds
      cases hds
      exact Or.inl ⟨rfl, rfl⟩
    · rw [if_neg (by decide : ¬ (Gzip = Uncompressed)), if_pos rfl] at hds
      cases g with
      | error e2 => cases hds
      | ok u =>
          cases hds
          exact Or.inr (Or.inl ⟨rfl, rfl⟩)
    · rw [if_neg (by decide : ¬ (Zstd = Uncompressed)),
        if_neg (by decide : ¬ (Zstd = Gzip)), if_pos rfl] at hds
      cases z with
      | error e2 => cases hds
      | ok u =>
          cases hds
          exact Or.inr (Or.inr (Or.inl ⟨rfl, rfl⟩))
    · rw [if_neg (by decide : ¬ (Bzip2 = Uncompressed)),
        if_neg (by decide : ¬ (Bzip2 = Gzip)), if_neg (by decide : ¬ (Bzip2 = Zstd)),
        if_neg (by decide : ¬ (Bzip2 = Xz)), if_pos rfl] at hds
      rcases he with rfl | rfl
      · cases hds
        exact Or.inr (Or.inr (Or.inr (Or.inr ⟨rfl, rfl⟩)))
      · cases hds
    · rw [if_neg (by decide : ¬ (Xz = Uncompressed)),
        if_neg (by decide : ¬ (Xz = Gzip)), if_neg (by decide : ¬ (Xz = Zstd)),
        if_pos rfl] at hds
      cases x with
      | error e2 => cases hds
      | ok u =>
          cases hds
          exact Or.inr (Or.inr (Or.inr (Or.inl ⟨rfl, rfl⟩)))
  by_cases hlen : 10 ≤ src.data.length
  · rw [if_pos hlen] at hpk
    exact main _ _ _ hpk (Or.inl rfl)
  · rw [if_neg hlen] at hpk
    cases hterm : src.terminal with
    | eof =>
        rw [hterm] at hpk
        exact main _ _ _ hpk (Or.inr rfl)
    | fail m =>
        rw [hterm] at hpk
        rw [DS_of_peek_fail src g z x _ _ m hpk] at hds
        cases hds

/-! ## Claim theorems -/

/-- C3: `DetectCompression` iterates its matcher map in an unspecified order
(a Go map); because the registered signatures are pairwise disjoint, scanning
the entries in any order returns the same algorithm as the canonical
`DetectCompression` — the first (and only) matcher that returns true, or
`Uncompressed` when none match.  Hence two evaluations on the same window
always agree, whatever iteration order each one sees. -/
theorem C3_detect_deterministic (l : List (Compression × (List Nat → Bool)))
    (hl : l.Perm matcherTable) (s : List Nat) :
    detectFirst l s = DetectCompression s := by
  by_cases hex : ∃ p ∈ matcherTable, p.2 s = true
  · obtain ⟨⟨c, f⟩, hmem, htrue⟩ := hex
    have huniq : ∀ q ∈ matcherTable, q.2 s = true → q.1 = c :=
      fun q hq hqt => matcherTable_uniq s q (c, f) hq hmem hqt htrue
    have hr : DetectCompression s = c :=
      detectFirst_of_uniq matcherTable s c f hmem htrue huniq
    rw [hr]
    exact detectFirst_of_uniq l s c f (hl.mem_iff.mpr hmem) htrue
      (fun q hq hqt => huniq q (hl.subset hq) hqt)
  · push_neg at hex
    have hfl : ∀ p ∈ matcherTable, p.2 s = false := by
      intro p hp
      have := hex p hp
      revert this; cases p.2 s <;> simp
    have hr : DetectCompression s = Uncompressed :=
      detectFirst_of_forall_false matcherTable s hfl
    rw [hr]
    exact detectFirst_of_forall_false l s (fun p hp => hfl p (hl.subset hp))

/-- C3 witness: scanning the table in reversed order classifies a zstd window
exactly as `DetectCompression` does. -/
theorem C3_witness :
    detectFirst matcherTable.reverse [0x28, 0xB5, 0x2F, 0xFD] =
      DetectCompression [0x28, 0xB5, 0x2F, 0xFD] :=
  C3_detect_deterministic matcherTable.reverse (List.reverse_perm matcherTable)
    [0x28, 0xB5, 0x2F, 0xFD]

/-- C4: the zstd matcher accepts a window exactly when it starts with the
4-byte zstd frame magic, or has at least 8 bytes and the little-endian 32-bit
value of its first 4 bytes with the low 4 bits masked off equals the
skippable-frame marker `0x184D2A50`; with fewer than 8 bytes and no exact
prefix it returns false (a non-match, not an error). -/
theorem C4_zstdMatcher_spec (source : List Nat) (hv : ∀ b ∈ source, b < 256) :
    zstdMatcher source = true ↔
      (zstdMagic.isPrefixOf source = true ∨
        (8 ≤ source.length ∧
          leUint32 (source.getD 0 0) (source.getD 1 0) (source.getD 2 0) (source.getD 3 0) -
            leUint32 (source.getD 0 0) (source.getD 1 0) (source.getD 2 0) (source.getD 3 0) % 16 =
            zstdMagicSkippableStart)) := by
  by_cases hpre : zstdMagic.isPrefixOf source = true
  · unfold zstdMatcher
    simp [hpre]
  · have hpref : zstdMagic.isPrefixOf source = false := by
      revert hpre; cases zstdMagic.isPrefixOf source <;> simp
    by_cases hlen : source.length < 8
    · have hm : zstdMatcher source = false := by
        unfold zstdMatcher
        rw [hpref]
        simp only [Bool.false_eq_true, if_false]
        rw [if_pos hlen]
      rw [hm]
      simp only [hpref, Bool.false_eq_true, false_iff, not_or]
      exact ⟨by simp, fun hc => absurd hc.1 (by omega)⟩
    · rcases source with _ | ⟨b0, source⟩
      · exact absurd (by simp) hlen
      rcases source with _ | ⟨b1, source⟩
      · exact absurd (by simp) hlen
      rcases source with _ | ⟨b2, source⟩
      · exact absurd (by simp) hlen
      rcases source with _ | ⟨b3, source⟩
      · exact absurd (by simp) hlen
      have h0 : b0 < 256 := hv b0 (by simp)
      have h1 : b1 < 256 := hv b1 (by simp)
      have h2 : b2 < 256 := hv b2 (by simp)
      have h3 : b3 < 256 := hv b3 (by simp)
      have hmatch : zstdMatcher (b0 :: b1 :: b2 :: b3 :: source) =
          (leUint32 b0 b1 b2 b3 &&& zstdMagicSkippableMask == zstdMagicSkippableStart) := by
        unfold zstdMatcher
        rw [hpref]
        simp only [Bool.false_eq_true, if_false]
        rw [if_neg hlen]
      rw [hmatch, skippable_beq_iff b0 b1 b2 b3 h0 h1 h2 h3]
      have hd0 : (b0 :: b1 :: b2 :: b3 :: source).getD 0 0 = b0 := rfl
      have hd1 : (b0 :: b1 :: b2 :: b3 :: source).getD 1 0 = b1 := rfl
      have hd2 : (b0 :: b1 :: b2 :: b3 :: source).getD 2 0 = b2 := rfl
      have hd3 : (b0 :: b1 :: b2 :: b3 :: source).getD 3 0 = b3 := rfl
      rw [hd0, hd1, hd2, hd3, hpref]
      have h8 : 8 ≤ (b0 :: b1 :: b2 :: b3 :: source).length := Nat.le_of_not_lt hlen
      simp only [Bool.false_eq_true, false_or]
      exact ⟨fun hs => ⟨h8, hs⟩, fun hs => hs.2⟩

/-- C4 witness: an 8-byte skippable frame whose first 4 bytes are the
little-endian value `0x184D2A50` is accepted by the zstd matcher. -/
theorem C4_witness : zstdMatcher [0x50, 0x2A, 0x4D, 0x18, 0, 0, 0, 0] = true :=
  (C4_zstdMatcher_spec [0x50, 0x2A, 0x4D, 0x18, 0, 0, 0, 0] (by decide)).mpr
    (Or.inr ⟨by decide, by decide⟩)

/-- C5: `DetectCompression` classifies by magic prefix — gzip, bzip2, xz and
zstd windows go to their algorithms, the empty window and any window matching
no registered signature return `Uncompressed` (no error path exists). -/
theorem C5_detect_by_magic :
    (∀ r : List Nat, DetectCompression (0x1F :: 0x8B :: 0x08 :: r) = Gzip) ∧
    (∀ r : List Nat, DetectCompression (0x42 :: 0x5A :: 0x68 :: r) = Bzip2) ∧
    (∀ r : List Nat, DetectCompression (0xFD :: 0x37 :: 0x7A :: 0x58 :: 0x5A :: 0x00 :: r) = Xz) ∧
    (∀ r : List Nat, DetectCompression (0x28 :: 0xB5 :: 0x2F :: 0xFD :: r) = Zstd) ∧
    DetectCompression [] = Uncompressed ∧
    (∀ s : List Nat, (∀ p ∈ matcherTable, p.2 s = false) →
      DetectCompression s = Uncompressed) :=
  ⟨detect_gzip_heads, detect_bzip2_heads, detect_xz_heads, detect_zstd_heads, rfl,
   fun s h => detectFirst_of_forall_false matcherTable s h⟩

/-- C5 witness: a one-byte window matching no signature classifies as
`Uncompressed`. -/
theorem C5_witness : DetectCompression [0x00] = Uncompressed :=
  C5_detect_by_magic.2.2.2.2.2 [0x00] (by decide)

/-- C8: `CompressStream` supports writing only for Uncompressed, Gzip and
Zstd; every other `Compression` value gets the unsupported-format error
naming the algorithm's extension, and the destination is left untouched.
For Bzip2 and Xz the extension is empty, so the message is the bare
"unsupported compression format " text. -/
theorem C8_compress_unsupported :
    (∀ (dest : List Nat) (compression : Compression),
      compression ≠ Uncompressed → compression ≠ Gzip → compression ≠ Zstd →
      CompressStream dest compression =
        (.error ("unsupported compression format " ++ Extension compression), dest)) ∧
    (∀ dest : List Nat,
      CompressStream dest Bzip2 = (.error "unsupported compression format ", dest) ∧
      CompressStream dest Xz = (.error "unsupported compression format ", dest)) := by
  constructor
  · intro dest compression h0 h1 h2
    unfold CompressStream
    rw [if_neg h0, if_neg h1, if_neg h2]
  · intro dest
    exact ⟨rfl, rfl⟩

/-- C8 witness: requesting a Bzip2 compress stream over a destination that
already holds one byte fails with the unsupported-format error and leaves
the destination unchanged. -/
theorem C8_witness :
    CompressStream [7] Bzip2 =
      (.error ("unsupported compression format " ++ Extension Bzip2), [7]) :=
  C8_compress_unsupported.1 [7] Bzip2 (by decide) (by decide) (by decide)

/-- C9: `Extension` returns "gz" for Gzip, "zst" for Zstd, and the empty
string for every other value (including Uncompressed, Bzip2, Xz and
out-of-range tags); hence the unsupported-format error raised for Bzip2/Xz
compression names an empty extension. -/
theorem C9_extension :
    Extension Gzip = "gz" ∧ Extension Zstd = "zst" ∧
    (∀ compression : Compression, compression ≠ Gzip → compression ≠ Zstd →
      Extension compression = "") ∧
    (∀ dest : List Nat,
      (CompressStream dest Bzip2).1 = .error ("unsupported compression format " ++ "") ∧
      (CompressStream dest Xz).1 = .error ("unsupported compression format " ++ "")) := by
  refine ⟨rfl, rfl, ?_, ?_⟩
  · intro compression h1 h2
    unfold Extension
    rw [if_neg h1, if_neg h2]
  · intro dest
    exact ⟨rfl, rfl⟩

/-- C9 witness: an out-of-range tag has an empty extension. -/
theorem C9_witness : Extension 99 = "" :=
  C9_extension.2.2.1 99 (by decide) (by decide)

/-- C2: the subprocess bridge.  A `Start` failure is returned synchronously
and no stream handle is handed back; a non-zero exit closes the pipe's write
side with an error embedding both the exit failure and the captured stderr
text, which the caller's read past the buffered output observes; a zero exit
closes the write side cleanly and the caller observes end-of-data.
Consequently an xz-classified stream whose decoder cannot start makes
`DecompressStream` fail at open time with that spawn error. -/
theorem C2_cmdStream_bridge :
    (∀ (p : Proc) (e : String), p.startErr = some e → cmdStream p = .error e) ∧
    (∀ (p : Proc) (e : String), p.startErr = none → p.exitErr = some e →
      ∃ r, cmdStream p = .ok r ∧
        pipeReadAll r = (p.stdout, .fail (e ++ ": " ++ p.stderrText))) ∧
    (∀ p : Proc, p.startErr = none → p.exitErr = none →
      ∃ r, cmdStream p = .ok r ∧ pipeReadAll r = (p.stdout, .eof)) ∧
    (∀ (src : ByteSource) (g z : Except String Unit) (p : Proc) (e : String),
      src.terminal = .eof → xzMagic.isPrefixOf src.data = true → p.startErr = some e →
      DecompressStream src g z (cmdStreamOpen p) = .error (.fail e)) := by
  refine ⟨?_, ?_, ?_, ?_⟩
  · intro p e hp
    unfold cmdStream
    rw [hp]
  · intro p e hp he
    refine ⟨{ data := p.stdout, terminal := .fail (e ++ ": " ++ p.stderrText) }, ?_, rfl⟩
    unfold cmdStream
    rw [hp, he]
  · intro p hp he
    refine ⟨{ data := p.stdout, terminal := .eof }, ?_, rfl⟩
    unfold cmdStream
    rw [hp, he]
  · intro src g z p e hterm hpref hp
    obtain ⟨t, ht⟩ := List.isPrefixOf_iff_prefix.mp hpref
    have hopen : cmdStreamOpen p = .error e := by
      unfold cmdStreamOpen cmdStream
      rw [hp]
    by_cases hlen : 10 ≤ src.data.length
    · have hpk := peek10 src
      rw [if_pos hlen] at hpk
      have hdet : DetectCompression (src.data.take 10) = Xz := by
        rw [← ht, List.take_append_eq_append_take,
          List.take_of_length_le (show xzMagic.length ≤ 10 by simp [xzMagic])]
        exact detect_xz_heads _
      rw [DS_of_peek src g z (cmdStreamOpen p) _ _ _ hpk (Or.inl rfl), hdet]
      rw [if_neg (by decide : ¬ (Xz = Uncompressed)), if_neg (by decide : ¬ (Xz = Gzip)),
        if_neg (by decide : ¬ (Xz = Zstd)), if_pos rfl, hopen]
    · have hpk := peek10 src
      rw [if_neg hlen, hterm] at hpk
      have hdet : DetectCompression src.data = Xz := by
        rw [← ht]
        exact detect_xz_heads _
      rw [DS_of_peek src g z (cmdStreamOpen p) _ _ _ hpk (Or.inr rfl), hdet]
      rw [if_neg (by decide : ¬ (Xz = Uncompressed)), if_neg (by decide : ¬ (Xz = Gzip)),
        if_neg (by decide : ¬ (Xz = Zstd)), if_pos rfl, hopen]

/-- C2 witness: a process that fails to start with "xz: executable file not
found" aborts `cmdStream` synchronously with that error. -/
theorem C2_witness :
    cmdStream { startErr := some "xz: executable file not found", exitErr := none,
                stdout := [], stderrText := "" } =
      .error "xz: executable file not found" :=
  C2_cmdStream_bridge.1
    { startErr := some "xz: executable file not found", exitErr := none,
      stdout := [], stderrText := "" } "xz: executable file not found" rfl

/-- C10: closing a handle returned by `DecompressStream` never closes the
caller's source reader.  The Uncompressed branch installs no closer, so
`Close` returns nil and does nothing; the Bzip2 branch installs an explicit
no-op closer; the Gzip/Xz closers only cancel the subprocess context and
close the codec reader; the Zstd closer only closes the codec reader.  In
every case the source's closed-state is untouched. -/
theorem C10_close_frame (src : ByteSource) (g z x : Except String Unit) (h : Handle)
    (hds : DecompressStream src g z x = .ok h) :
    (∀ w : World, (handleClose h w).sourceClosed = w.sourceClosed) ∧
    (h.compression = Uncompressed → h.closer = none ∧ ∀ w, handleClose h w = w) ∧
    (h.compression = Bzip2 → h.closer = some .retNil ∧ ∀ w, handleClose h w = w) ∧
    (h.compression = Gzip → h.closer = some .cancelCloseCodec) ∧
    (h.compression = Zstd → h.closer = some .closeCodec) ∧
    (h.compression = Xz → h.closer = some .cancelCloseCodec) := by
  have hr := DS_handle_range src g z x h hds
  refine ⟨?_, ?_, ?_, ?_, ?_, ?_⟩
  · intro w
    cases hc : h.closer with
    | none => simp [handleClose, hc]
    | some eff => cases eff <;> simp [handleClose, hc, applyCloserEff]
  · intro hcomp
    rcases hr with ⟨h1, h2⟩ | ⟨h1, h2⟩ | ⟨h1, h2⟩ | ⟨h1, h2⟩ | ⟨h1, h2⟩ <;>
      rw [hcomp] at h1
    · exact ⟨h2, fun w => by simp [handleClose, h2]⟩
    · exact absurd h1 (by decide)
    · exact absurd h1 (by decide)
    · exact absurd h1 (by decide)
    · exact absurd h1 (by decide)
  · intro hcomp
    rcases hr with ⟨h1, h2⟩ | ⟨h1, h2⟩ | ⟨h1, h2⟩ | ⟨h1, h2⟩ | ⟨h1, h2⟩ <;>
      rw [hcomp] at h1
    · exact absurd h1 (by decide)
    · exact absurd h1 (by decide)
    · exact absurd h1 (by decide)
    · exact absurd h1 (by decide)
    · exact ⟨h2, fun w => by simp [handleClose, h2, applyCloserEff]⟩
  · intro hcomp
    rcases hr with ⟨h1, h2⟩ | ⟨h1, h2⟩ | ⟨h1, h2⟩ | ⟨h1, h2⟩ | ⟨h1, h2⟩ <;>
      rw [hcomp] at h1
    · exact absurd h1 (by decide)
    · exact h2
    · exact absurd h1 (by decide)
    · exact absurd h1 (by decide)
    · exact absurd h1 (by decide)
  · intro hcomp
    rcases hr with ⟨h1, h2⟩ | ⟨h1, h2⟩ | ⟨h1, h2⟩ | ⟨h1, h2⟩ | ⟨h1, h2⟩ <;>
      rw [hcomp] at h1
    · exact absurd h1 (by decide)
    · exact absurd h1 (by decide)
    · exact h2
    · exact absurd h1 (by decide)
    · exact absurd h1 (by decide)
  · intro hcomp
    rcases hr with ⟨h1, h2⟩ | ⟨h1, h2⟩ | ⟨h1, h2⟩ | ⟨h1, h2⟩ | ⟨h1, h2⟩ <;>
      rw [hcomp] at h1
    · exact absurd h1 (by decide)
    · exact absurd h1 (by decide)
    · exact absurd h1 (by decide)
    · exact h2
    · exact absurd h1 (by decide)

/-- C10 witness: closing the handle obtained from a zero-length source does
not close the source. -/
theorem C10_witness :
    (handleClose
      { reader := .buffered (some { buffered := [], src := { data := [], terminal := .eof } }),
        compression := Uncompressed, closer := none }
      { sourceClosed := false, codecClosed := false, ctxCancelled := false }).sourceClosed =
    ({ sourceClosed := false, codecClosed := false, ctxCancelled := false } : World).sourceClosed :=
  (C10_close_frame { data := [], terminal := .eof } (.ok ()) (.ok ()) (.ok ())
      { reader := .buffered (some { buffered := [], src := { data := [], terminal := .eof } }),
        compression := Uncompressed, closer := none }
      rfl).1
    { sourceClosed := false, codecClosed := false, ctxCancelled := false }

/-- C1: refuted by the code.  The 3-byte bzip2-magic source delivers fewer
than 10 bytes before end-of-data, yet `DecompressStream` returns the stale
peek `io.EOF` instead of a handle: the Bzip2 branch's `if err != nil` tests
the `err` left over from `buf.Peek(10)`, contradicting the deliberate
ignore-`io.EOF` comment at the peek site.  Zero-length input still behaves
as the claim says: detection yields Uncompressed, whose branch performs no
such check, and the handle's first read of any size returns end-of-data with
no bytes. -/
theorem C1_bzip2_short_eof_bug :
    DecompressStream { data := [0x42, 0x5A, 0x68], terminal := .eof }
        (.ok ()) (.ok ()) (.ok ()) = .error RErr.eof ∧
    (DecompressStream { data := [], terminal := .eof } (.ok ()) (.ok ()) (.ok ()) =
      .ok { reader := .buffered (some { buffered := [], src := { data := [], terminal := .eof } }),
            compression := Uncompressed, closer := none } ∧
      ∀ k, bufferedReaderRead
          (some { buffered := [], src := { data := [], terminal := RErr.eof } }) k =
          { bytes := [], err := some .eof, state := none, putPool := true }) :=
  ⟨rfl, rfl, fun k => rfl⟩

/-- Reading zero bytes delivers no bytes, whatever the state. -/
theorem read_zero_bytes (r : BufioR) : (bufferedReaderRead (some r) 0).bytes = [] := by
  rcases hb : r.buffered with _ | ⟨b, bs⟩
  · by_cases hd : r.src.data = []
    · by_cases ht : r.src.terminal = RErr.eof <;>
        simp [bufferedReaderRead, bufioRead, hb, hd, ht]
    · simp [bufferedReaderRead, bufioRead, hb, hd]
  · have hne : r.buffered ≠ [] := by rw [hb]; simp
    simp [bufferedReaderRead, bufioRead, hne]

/-- C6: `Peek(n)` does not advance the logical read position; repeating the
peek (same `n`) returns the identical bytes, error and state; a smaller
second peek returns the corresponding prefix; and a subsequent `Read` of at
most `n` bytes delivers exactly the peeked bytes, i.e. the stream still
starts at the original position. -/
theorem C6_peek_stable (st : Option BufioR) (n : Nat) :
    readerLogical (bufferedReaderPeek st n).2.2 = readerLogical st ∧
    bufferedReaderPeek (bufferedReaderPeek st n).2.2 n = bufferedReaderPeek st n ∧
    (∀ n2, n2 ≤ n →
      (bufferedReaderPeek (bufferedReaderPeek st n).2.2 n2).1 =
        (bufferedReaderPeek st n).1.take n2) ∧
    (∀ k, k ≤ n →
      (bufferedReaderRead (bufferedReaderPeek st n).2.2 k).bytes =
        (bufferedReaderPeek st n).1.take k) := by
  cases st with
  | none =>
      refine ⟨rfl, rfl, fun n2 h2 => ?_, fun k hk => ?_⟩
      · simp [bufferedReaderPeek]
      · simp [bufferedReaderRead, bufferedReaderPeek]
  | some r =>
      by_cases hn : n ≤ r.buffered.length
      · have hpk : bufferedReaderPeek (some r) n = (r.buffered.take n, none, some r) := by
          simp [bufferedReaderPeek, bufioPeek, hn]
        rw [hpk]
        refine ⟨rfl, hpk, fun n2 h2 => ?_, fun k hk => ?_⟩
        · have hn2 : n2 ≤ r.buffered.length := le_trans h2 hn
          simp [bufferedReaderPeek, bufioPeek, hn2, List.take_take, Nat.min_eq_left h2]
        · rcases hb : r.buffered with _ | ⟨b, bs⟩
          · have hk0 : k = 0 := by rw [hb] at hn; simp at hn; omega
            subst hk0
            rw [read_zero_bytes]
            simp
          · have hne : r.buffered ≠ [] := by rw [hb]; simp
            simp [bufferedReaderRead, bufioRead, hne, hb, List.take_take, Nat.min_eq_left hk]
      · by_cases hall : n ≤ (r.buffered ++ r.src.data).length
        · have hpk : bufferedReaderPeek (some r) n =
              ((r.buffered ++ r.src.data).take n, none,
                some { buffered := r.buffered ++ r.src.data,
                       src := { data := [], terminal := r.src.terminal } }) := by
            simp only [bufferedReaderPeek, bufioPeek]
            rw [if_neg hn, if_pos hall]
          have hall2 : n ≤ r.buffered.length + r.src.data.length := by simpa using hall
          rw [hpk]
          refine ⟨by simp [readerLogical, BufioR.logical], ?_, fun n2 h2 => ?_, fun k hk => ?_⟩
          · simp [bufferedReaderPeek, bufioPeek, hall2]
          · have hn2 : n2 ≤ r.buffered.length + r.src.data.length := le_trans h2 hall2
            simp [bufferedReaderPeek, bufioPeek, hn2, List.take_take, Nat.min_eq_left h2]
          · rcases hb : r.buffered ++ r.src.data with _ | ⟨b, bs⟩
            · have hk0 : k = 0 := by rw [hb] at hall; simp at hall; omega
              subst hk0
              rw [read_zero_bytes]
              simp
            · have hne : r.buffered ++ r.src.data ≠ [] := by rw [hb]; simp
              simp [bufferedReaderRead, bufioRead, hne, hb, List.take_take, Nat.min_eq_left hk]
        · have hpk : bufferedReaderPeek (some r) n =
              (r.buffered ++ r.src.data, some r.src.terminal,
                some { buffered := r.buffered ++ r.src.data,
                       src := { data := [], terminal := r.src.terminal } }) := by
            simp only [bufferedReaderPeek, bufioPeek]
            rw [if_neg hn, if_neg hall]
          rw [hpk]
          refine ⟨by simp [readerLogical, BufioR.logical], ?_, fun n2 h2 => ?_, fun k hk => ?_⟩
          · have hall2 : ¬ n ≤ r.buffered.length + r.src.data.length := by simpa using hall
            simp [bufferedReaderPeek, bufioPeek, hall2]
          · by_cases h2l : n2 ≤ r.buffered.length + r.src.data.length
            · simp [bufferedReaderPeek, bufioPeek, h2l]
            · have h2t : (r.buffered ++ r.src.data).take n2 = r.buffered ++ r.src.data :=
                List.take_of_length_le (by simpa using le_of_not_le h2l)
              simp [bufferedReaderPeek, bufioPeek, h2l, h2t]
          · rcases hb : r.buffered ++ r.src.data with _ | ⟨b, bs⟩
            · by_cases ht : r.src.terminal = RErr.eof <;>
                simp [bufferedReaderRead, bufioRead, ht]
            · have hne : r.buffered ++ r.src.data ≠ [] := by rw [hb]; simp
              simp [bufferedReaderRead, bufioRead, hne, hb]

/-- C6 witness: after peeking 2 bytes of a 3-byte stream, a 1-byte peek
returns the first peeked byte. -/
theorem C6_witness :
    (bufferedReaderPeek
      (bufferedReaderPeek
        (some { buffered := [10, 20, 30], src := { data := [], terminal := .eof } }) 2).2.2
      1).1 =
    (bufferedReaderPeek
      (some { buffered := [10, 20, 30], src := { data := [], terminal := .eof } }) 2).1.take 1 :=
  (C6_peek_stable
    (some { buffered := [10, 20, 30], src := { data := [], terminal := .eof } }) 2).2.2.1
    1 (by decide)

/-- Once the buffer is back in the pool (`buf == nil`), a trace of further
operations stays at nil and never touches the pool again. -/
theorem runOps_none (ops : List Op) : runOps none ops = (none, 0) := by
  induction ops with
  | nil => rfl
  | cons op rest ih =>
      cases op with
      | read k => simp [runOps, stepOp, bufferedReaderRead, ih]
      | peek n => simp [runOps, stepOp, bufferedReaderPeek, ih]

/-- An operation that returns the buffer to the pool nils the buffer
field. -/
theorem stepOp_put_none (st : Option BufioR) (op : Op) (st2 : Option BufioR)
    (h : stepOp st op = (st2, true)) : st2 = none := by
  cases op with
  | peek n =>
      exfalso
      rcases hbp : bufferedReaderPeek st n with ⟨bs, ep, st3⟩
      simp [stepOp, hbp] at h
  | read k =>
      cases st with
      | none => simp [stepOp, bufferedReaderRead] at h
      | some r =>
          rcases hbr : bufioRead r k with ⟨bs, ep, r2⟩
          by_cases he : ep = some RErr.eof
          · simp [stepOp, bufferedReaderRead, hbr, he] at h
            exact h.symm
          · simp [stepOp, bufferedReaderRead, hbr, he] at h

/-- Any operation trace on any `bufferedReader` state returns the buffer to
the pool at most once. -/
theorem runOps_le_one (st : Option BufioR) (ops : List Op) :
    (runOps st ops).2 ≤ 1 := by
  induction ops generalizing st with
  | nil => simp [runOps]
  | cons op rest ih =>
      rcases hso : stepOp st op with ⟨st2, put⟩
      cases put
      · simpa [runOps, hso] using ih st2
      · have h2 := stepOp_put_none st op st2 hso
        subst h2
        simp [runOps, hso, runOps_none]

/-- C7: the pooled buffer is returned at most once per `bufferedReader`
across any sequence of reads and peeks, and the return happens exactly on
the `Read` call whose underlying `bufio` read reports `io.EOF`; that call
nils the buffer, and from then on every `Read` and `Peek` reports `io.EOF`
with no further pool interaction (a nil-state trace performs zero
returns). -/
theorem C7_pool_once :
    (∀ (src : ByteSource) (ops : List Op),
      (runOps (newBufferedReader src) ops).2 ≤ 1) ∧
    (∀ (r : BufioR) (k : Nat),
      (bufferedReaderRead (some r) k).putPool = true ↔
        (bufioRead r k).2.1 = some RErr.eof) ∧
    (∀ (st : Option BufioR) (k : Nat),
      (bufferedReaderRead st k).putPool = true →
        (bufferedReaderRead st k).state = none ∧ st ≠ none) ∧
    (∀ k, bufferedReaderRead none k =
      { bytes := [], err := some .eof, state := none, putPool := false }) ∧
    (∀ n, bufferedReaderPeek none n = ([], some .eof, none)) ∧
    (∀ ops : List Op, runOps none ops = (none, 0)) := by
  refine ⟨fun src ops => runOps_le_one _ ops, ?_, ?_, fun k => rfl, fun n => rfl, runOps_none⟩
  · intro r k
    rcases hbr : bufioRead r k with ⟨bs, ep, r2⟩
    by_cases he : ep = some RErr.eof <;> simp [bufferedReaderRead, hbr, he]
  · intro st k hput
    cases st with
    | none => simp [bufferedReaderRead] at hput
    | some r =>
        rcases hbr : bufioRead r k with ⟨bs, ep, r2⟩
        by_cases he : ep = some RErr.eof
        · refine ⟨?_, by simp⟩
          simp [bufferedReaderRead, hbr, he]
        · simp [bufferedReaderRead, hbr, he] at hput

/-- C7 witness: the first read on an exhausted-but-unreturned reader returns
the buffer to the pool and nils the state. -/
theorem C7_witness :
    (bufferedReaderRead
      (some { buffered := [], src := { data := [], terminal := .eof } }) 1).state = none ∧
    (some { buffered := [], src := { data := [], terminal := RErr.eof } } :
      Option BufioR) ≠ none :=
  C7_pool_once.2.2.1
    (some { buffered := [], src := { data := [], terminal := .eof } }) 1 (by decide)

end Compr
